import Mathlib

/-!
Formal model of `main.py` of the `bortrace_bot` repository: a boat-race
monitoring pipeline (venue discovery, schedule-window filter, race-data
extraction, feature building, decision engine and the patrol loop).

Modelling conventions, used uniformly below:
* HTML pages fetched over the network are modelled as explicit data
  (`Soup`, `BoatRow`, ...): a field of such a structure records the
  outcome a given selector or regular-expression query of the source
  would have on that page (`deadlineMatch` is the first match of the
  deadline regex, `hasNoDataMarker` whether the page text contains the
  literal no-data marker, and so on).
* Python floats are modelled as exact rationals `ℚ`.
* Python exceptions are modelled by the `Except PyErr` monad; a bare
  `except:` handler corresponds to mapping `.error _` to the handler's
  result.
* The external predictive model is an opaque oracle
  `model : InputDict → List ℚ` returning the probability row.
-/

/-- Python exceptions that the code of `fetch_race_data` / `predict_single`
can raise: the unbound-name error (`jcd` on line 183), list indexing out of
range, `float()` parse failure, and a catch-all. -/
inductive PyErr where
  | nameError
  | indexError
  | valueError
  | other
  deriving DecidableEq

/-- One `tbody` element of the race-list page, as inspected by the
boat-information loop (main.py lines 170-181).  `hasLadderClass i` records
whether the selector `.is-ladder{i}` matches inside this element,
`textHead5` is `b.text[:5]`, `rankClassMatch` the first match of the regex
`([AB][12])` over the element text, and `rateMatches` the successive
matches of `(\d\.\d{2})` converted to numbers. -/
structure BoatRow where
  hasLadderClass : Nat → Bool
  textHead5 : String
  rankClassMatch : Option String
  rateMatches : List ℚ

/-- One `td` cell of the pre-race-information table (main.py lines 200-205).
`text` is the stripped cell text, `floatOfText` the value `float(text)`
would produce (`none` meaning `ValueError`), `fs11Text` the stripped text
of a `.is-fs11` child if present, and `fs11DotMatch` the value
`float("0" + m.group(1))` for the first `(\.\d+)` match in that child text
(`none` meaning no match). -/
structure Td where
  text : String
  floatOfText : Option ℚ
  fs11Text : Option String
  fs11DotMatch : Option ℚ

/-- One `tbody` row of the fixed-width pre-race information table. -/
structure InfoRow where
  tds : List Td

/-- The `.weather1` block (main.py lines 186-193): results of the wind
speed and wave height regexes over its text. -/
structure WeatherBlock where
  windMatch : Option Int
  waveMatch : Option Int

/-- A parsed HTML page, restricted to the queries `fetch_race_data`
performs on it. `w748rows` is `none` when `select_one(".is-w748")` finds
no table, otherwise the list of `tbody` rows of that table. -/
structure Soup where
  deadlineMatch : Option String
  hasNoDataMarker : Bool
  tbodyFs12 : List BoatRow
  tbodyAll : List BoatRow
  weather1 : Option WeatherBlock
  w748rows : Option (List InfoRow)

/-- The network environment of one `fetch_race_data` call: the outcome of
`_get_soup` on the race-list URL (line 156), on the before-info URL
(line 165), and on the before-info URL again (the fetch attempted on
line 183, which the unbound name `jcd` prevents from ever being issued).
`none` models `_get_soup` returning `None` after exhausting retries. -/
structure RacePages where
  soupList : Option Soup
  soupInfo : Option Soup
  soupInfoRefetch : Option Soup

/-- The raw race record: the `data` dict assembled on main.py lines
199-208 (boat indices shifted to `Fin 6`, so boat `i` of the source is
index `i - 1` here). -/
structure RaceData where
  wind_speed : Int
  wave : Int
  deadline : String
  ex_time : Fin 6 → ℚ
  st : Fin 6 → ℚ
  rank : Fin 6 → String
  win_rate : Fin 6 → ℚ

/-- `str.zfill(5)`: left-pad with `'0'` to width 5 (main.py line 161). -/
def zfill5 (s : String) : String :=
  if s.length ≥ 5 then s else String.mk (List.replicate (5 - s.length) '0') ++ s

/-- The row test of main.py line 174:
`b.select_one(f".is-ladder{i}") or str(i) in b.text[:5]`. -/
def boatRowMatches (i : Nat) (b : BoatRow) : Bool :=
  b.hasLadderClass i || b.textHead5.contains (Nat.digitChar i)

/-- The per-boat loop body of main.py lines 172-181: scan `bodies` for the
first row matching boat `i`; rank class defaults to `"B2"` and win rate to
`0.0` when no row or no regex match is found. -/
def extractBoatInfo (bodies : List BoatRow) (i : Nat) : String × ℚ :=
  match bodies.find? (boatRowMatches i) with
  | none => ("B2", 0)
  | some b => (b.rankClassMatch.getD "B2", b.rateMatches.headD 0)

/-- Indexing `l[i]` with Python semantics: `IndexError` when out of range. -/
def pyIndex {α : Type} (l : List α) (i : Nat) : Except PyErr α :=
  match l[i]? with
  | some x => .ok x
  | none => .error .indexError

/-- Main.py lines 201-205 for one boat `i` (1-based): read `tds[4]` for the
exhibition time (defaulting to `6.80` unless the text starts with a digit,
in which case `float` is applied and may raise), and `tds[2]` for the
start-timing text (defaulting to `.15`, hence `0.15`, when the `.is-fs11`
child is absent or its text has no `(\.\d+)` match). -/
def extractInfoRow (rows : List InfoRow) (i : Nat) : Except PyErr (ℚ × ℚ) :=
  match pyIndex rows (i - 1) with
  | .error e => .error e
  | .ok row =>
    match pyIndex row.tds 4 with
    | .error e => .error e
    | .ok td4 =>
      let exParse : Except PyErr ℚ :=
        if (td4.text != "") && td4.text.front.isDigit then
          match td4.floatOfText with
          | some q => .ok q
          | none => .error .valueError
        else .ok (6.80 : ℚ)
      match exParse with
      | .error e => .error e
      | .ok exTime =>
        match pyIndex row.tds 2 with
        | .error e => .error e
        | .ok td2 =>
          let stVal : ℚ :=
            match td2.fs11Text with
            | some _ => td2.fs11DotMatch.getD (0.15 : ℚ)
            | none => (0.15 : ℚ)
          .ok (exTime, stVal)

/-- Main.py lines 183-209: the part of `fetch_race_data` following the
second before-info fetch.  This code is unreachable in the source (the
fetch on line 183 interpolates the unbound name `jcd` and so raises
`NameError` first), but is modelled faithfully: no-data check, weather
block, `.is-w748` table presence check, and the per-boat extraction that
assembles the `data` dict. -/
def afterRefetch (refetch : Option Soup) (deadline_str : String)
    (boat_info : Nat → String × ℚ) : Except PyErr (Option RaceData) :=
  match refetch with
  | none => .ok none
  | some soup_info =>
    if soup_info.hasNoDataMarker then .ok none
    else
      let wind_speed : Int :=
        match soup_info.weather1 with
        | none => 0
        | some w => w.windMatch.getD 0
      let wave : Int :=
        match soup_info.weather1 with
        | none => 0
        | some w => w.waveMatch.getD 0
      match soup_info.w748rows with
      | none => .ok none
      | some rows =>
        match (List.range 6).mapM (fun k => extractInfoRow rows (k + 1)) with
        | .error e => .error e
        | .ok vals =>
          .ok (some
            { wind_speed := wind_speed
              wave := wave
              deadline := deadline_str
              ex_time := fun i => (vals.getD i.val ((6.80 : ℚ), (0.15 : ℚ))).1
              st := fun i => (vals.getD i.val ((6.80 : ℚ), (0.15 : ℚ))).2
              rank := fun i => (boat_info (i.val + 1)).1
              win_rate := fun i => (boat_info (i.val + 1)).2 })

/-- `BoatRaceScraperV5.fetch_race_data` (main.py lines 150-210), as the
body of its `try:` block: fetch the race-list page (returning `None` when
unavailable), read the deadline text, fetch the before-info page
(returning `None` when unavailable or when it carries the no-data marker),
run the boat-information loop, and then — on line 183 — interpolate the
URL for a second before-info fetch.  That interpolation reads the local
name `jcd`, which is never bound inside `fetch_race_data`, so it raises
`NameError`; the remainder (`afterRefetch`) is dead code. -/
def fetch_race_data (pages : RacePages) : Except PyErr (Option RaceData) :=
  match pages.soupList with
  | none => .ok none
  | some soup_list =>
    let deadline_str : String :=
      match soup_list.deadlineMatch with
      | some t => zfill5 t
      | none => "00:00"
    match pages.soupInfo with
    | none => .ok none
    | some soup_info0 =>
      if soup_info0.hasNoDataMarker then .ok none
      else
        let bodies : List BoatRow :=
          if soup_list.tbodyFs12.isEmpty then soup_list.tbodyAll
          else soup_list.tbodyFs12
        let boat_info : Nat → String × ℚ := extractBoatInfo bodies
        Except.bind (Except.error PyErr.nameError : Except PyErr String)
          (fun _jcdUrl => afterRefetch pages.soupInfoRefetch deadline_str boat_info)

/-- The observable result of `fetch_race_data`: the enclosing bare
`except: return None` (main.py line 210) converts every raised exception
into the `None` return. -/
def fetch_race_data_result (pages : RacePages) : Option RaceData :=
  match fetch_race_data pages with
  | .ok v => v
  | .error _ => none

/-!
### Feature builder and decision engine (`predict_single`, main.py lines 215-268)
-/

/-- The feature dictionary `input_dict` assembled on main.py lines
227-240 (boat `i` of the source is index `i - 1` here). -/
structure InputDict where
  wind_speed : Int
  wave : Int
  rank_val : Fin 6 → ℚ
  win_rate : Fin 6 → ℚ
  ex_time : Fin 6 → ℚ
  ex_diff : Fin 6 → ℚ
  ex_rank : Fin 6 → ℚ
  st : Fin 6 → ℚ
  is_debuff_1 : ℚ

/-- `rank_map = {"A1": 4, "A2": 3, "B1": 2, "B2": 1}` with
`rank_map.get(..., 2)` defaulting to `2` (main.py lines 225 and 232). -/
def rank_map (s : String) : ℚ :=
  if s = "A1" then 4
  else if s = "A2" then 3
  else if s = "B1" then 2
  else if s = "B2" then 1
  else 2

/-- `pd.Series(vals).rank(method="min")` (main.py line 228): each value's
rank is one plus the number of strictly smaller values, so tied values
share the lowest rank of their tie group. -/
def rankMin (l : List ℚ) : List ℚ :=
  l.map (fun v => (1 : ℚ) + ((l.filter (fun w => decide (w < v))).length : ℚ))

/-- The exhibition-time list `ex_vals` (main.py lines 222-223). -/
def exVals (data : RaceData) : List ℚ :=
  (List.finRange 6).map data.ex_time

/-- Main.py lines 222-240: derive the fixed-schema feature dictionary from
one raw race record — mean of the six exhibition times, per-boat
mean-centred difference, "min"-method exhibition ranks, ordinal class
values, and the boat-1 debuff flag. -/
def buildInput (data : RaceData) : InputDict :=
  let ex_vals := exVals data
  let ex_mean : ℚ := ex_vals.sum / (ex_vals.length : ℚ)
  let ex_ranks := rankMin ex_vals
  let rank_val : Fin 6 → ℚ := fun i => rank_map (data.rank i)
  let ex_rank : Fin 6 → ℚ := fun i => ex_ranks.getD i.val 0
  { wind_speed := data.wind_speed
    wave := data.wave
    rank_val := rank_val
    win_rate := data.win_rate
    ex_time := data.ex_time
    ex_diff := fun i => data.ex_time i - ex_mean
    ex_rank := ex_rank
    st := data.st
    is_debuff_1 := if rank_val 0 ≤ 2 ∧ ex_rank 0 ≥ 4 then 1 else 0 }

/-- The sort relation used for the probability ranking: descending by the
probability component.  `List.insertionSort` with this relation computes
exactly what Python's stable `sorted(..., key=lambda x: x[1],
reverse=True)` computes: descending in the second component, ties kept in
their original order. -/
def descRel (a b : Nat × ℚ) : Prop := b.2 ≤ a.2

instance : DecidableRel descRel := fun a b => inferInstanceAs (Decidable (b.2 ≤ a.2))

instance : IsTotal (Nat × ℚ) descRel := ⟨fun a b => le_total b.2 a.2⟩

instance : IsTrans (Nat × ℚ) descRel := ⟨fun _ _ _ h1 h2 => le_trans h2 h1⟩

/-- Stable descending sort by the probability component, modelling
`sorted(..., key=lambda x: x[1], reverse=True)` on main.py line 246. -/
def sortDesc (l : List (Nat × ℚ)) : List (Nat × ℚ) :=
  List.insertionSort descRel l

/-- Main.py line 246: `sorted({i+1: p for i, p in enumerate(probs) if i > 0}
.items(), key=lambda x: x[1], reverse=True)` — pair every probability of
index `i > 0` with its lane number `i + 1` and sort descending by
probability. -/
def rankingOf (probs : List ℚ) : List (Nat × ℚ) :=
  sortDesc ((probs.enum.filter (fun ip => decide (0 < ip.1))).map
    (fun ip => (ip.1 + 1, ip.2)))

/-- Main.py lines 249-253: the strategy string chosen from the lead-upset
probability (`in_jump_prob`) and the top-ranked remaining probability;
the empty string is the initial value kept when `in_jump_prob < 0.55`. -/
def strategyOf (in_jump_prob top1_prob : ℚ) : String :=
  if in_jump_prob ≥ 0.55 then
    if top1_prob ≥ 0.35 then "FOCUS"
    else if top1_prob ≥ 0.25 then "STANDARD"
    else "WIDE"
  else ""

/-- The result dictionary `res_dict` built on main.py lines 257-263. -/
structure ResDict where
  course : String
  race : String
  deadline : String
  in_jump_prob : ℚ
  strategy : String
  top1 : Nat × ℚ
  top2 : Nat × ℚ
  top3 : Nat × ℚ
  basis : String
  bet : String
  deriving DecidableEq

/-- `predict_single` (main.py lines 215-268).  `fetched` is the value of
`scraper.fetch_race_data(course, rno, date_str)`; the opaque predictive
model (the `config`-driven column selection plus `model.predict`) is the
oracle `model`.  Missing data returns `(None, -1)`; an empty probability
row or a ranking shorter than three entries raises `IndexError`, which the
enclosing `except` turns into `(None, -2)`; an empty strategy returns
`(None, 0)`; otherwise the result dictionary is returned with status 1. -/
def predict_single (course : String) (rno : Nat)
    (model : InputDict → List ℚ) (fetched : Option RaceData) :
    Option ResDict × Int :=
  match fetched with
  | none => (none, -1)
  | some data =>
    let input := buildInput data
    let probs := model input
    match probs with
    | [] => (none, -2)
    | p0 :: _ =>
      let in_jump_prob : ℚ := 1 - p0
      match rankingOf probs with
      | t1 :: t2 :: t3 :: _ =>
        let strategy := strategyOf in_jump_prob t1.2
        if strategy = "" then (none, 0)
        else
          (some
            { course := course
              race := toString rno ++ "R"
              deadline := data.deadline
              in_jump_prob := in_jump_prob
              strategy := strategy
              top1 := t1
              top2 := t2
              top3 := t3
              basis := "1号艇:" ++ data.rank 0 ++ " / 展示:"
                ++ toString (input.ex_rank 0).floor ++ "位"
              bet :=
                if strategy ≠ "WIDE" then
                  toString t1.1 ++ "-" ++ toString t2.1 ++ toString t3.1 ++ "-全"
                else "1抜きBOX推奨" }, 1)
      | _ => (none, -2)

/-!
### Schedule window filter (`get_target_races_for_course`, main.py lines 113-148)

A race-list page is modelled by the outcome of the deadline scan: `none`
when `_get_soup` failed, otherwise the list of matches of the deadline
regex, each entry being `none` when `strptime` raises on its time text
and `some m` when it parses to a deadline lying `m` minutes after
`now_dt` (`m = (race_dt - now_dt).total_seconds() / 60`).
-/

/-- The `for i, time_str in enumerate(all_deadlines)` loop of main.py
lines 136-147, with `i` the running index: stop as soon as
`current_r = i + 1` exceeds 12, skip entries whose time text fails to
parse (the `except` on line 146 only prints), and collect `current_r`
when `5 <= minutes <= 35`. -/
def targetLoop : List (Option ℚ) → Nat → List Nat
  | [], _ => []
  | e :: rest, i =>
    if i + 1 > 12 then []
    else
      (match e with
       | none => []
       | some minutes =>
         if 5 ≤ minutes ∧ minutes ≤ 35 then [i + 1] else []) ++
      targetLoop rest (i + 1)

/-- `BoatRaceScraperV5.get_target_races_for_course` (main.py lines
113-148): an unavailable page or a page with no deadline matches yields
the empty target list; otherwise the enumeration loop runs. -/
def get_target_races_for_course (page : Option (List (Option ℚ))) : List Nat :=
  match page with
  | none => []
  | some entries =>
    if entries.isEmpty then []
    else targetLoop entries 0

/-- Modelled from the claim wording: the selection rule applied to one
positionally enumerated deadline entry — an unparseable entry is dropped,
a parsed one at 0-based position `k` is selected as race `k + 1` exactly
when its minutes-remaining value lies inclusively between 5 and 35. -/
def windowSelect (pe : Nat × Option ℚ) : Option Nat :=
  match pe.2 with
  | some m => if 5 ≤ m ∧ m ≤ 35 then some (pe.1 + 1) else none
  | none => none

/-- Modelled from the claim wording, for comparison with the code: the
`k`-th parsed deadline block (0-based `k`, races capped at 12) is race
`k + 1`, selected according to `windowSelect`. -/
def positionalTargetsSpec (entries : List (Option ℚ)) : List Nat :=
  (entries.take 12).enum.filterMap windowSelect

/-!
### Venue discovery (`fetch_active_courses`, main.py lines 89-111)

The index page is modelled by the list of `href` strings of its anchors.
The two regular expressions involved — the substring filter
`a[href*='jcd=']` and `re.search(r"jcd=(\d{2})", href)` — are small
enough to be modelled directly on the character list (`\d` is modelled as
an ASCII digit, which is all the venue codes of the static map use).
-/

/-- `COURSE_MAP` (main.py lines 49-55), as an association list
name ↦ two-digit code. -/
def COURSE_MAP : List (String × String) :=
  [("桐生", "01"), ("戸田", "02"), ("江戸川", "03"), ("平和島", "04"),
   ("多摩川", "05"), ("浜名湖", "06"), ("蒲郡", "07"), ("常滑", "08"),
   ("津", "09"), ("三国", "10"), ("びわこ", "11"), ("住之江", "12"),
   ("尼崎", "13"), ("鳴門", "14"), ("丸亀", "15"), ("児島", "16"),
   ("宮島", "17"), ("徳山", "18"), ("下関", "19"), ("若松", "20"),
   ("芦屋", "21"), ("福岡", "22"), ("唐津", "23"), ("大村", "24")]

/-- Does the character list start with `jcd=`? -/
def isJcdStart : List Char → Bool
  | 'j' :: 'c' :: 'd' :: '=' :: _ => true
  | _ => false

/-- The CSS substring test `a[href*='jcd=']` (main.py line 101): does the
character list contain `jcd=`? -/
def hasJcdEq : List Char → Bool
  | [] => false
  | c :: rest => isJcdStart (c :: rest) || hasJcdEq rest

/-- An anchored match of the pattern `jcd=(\d{2})` at the head of the
character list, returning the two-digit group. -/
def jcdAt : List Char → Option String
  | 'j' :: 'c' :: 'd' :: '=' :: a :: b :: _ =>
    if a.isDigit && b.isDigit then some (String.mk [a, b]) else none
  | _ => none

/-- `re.search(r"jcd=(\d{2})", href)` (main.py line 103): the first
position at which `jcd=` followed by two digits matches, returning the
two-digit group. -/
def jcdSearch : List Char → Option String
  | [] => none
  | c :: rest =>
    match jcdAt (c :: rest) with
    | some s => some s
    | none => jcdSearch rest

/-- `inv_map = {v: k for k, v in COURSE_MAP.items()}` followed by the
membership test and lookup of main.py lines 104-105. -/
def invLookup (code : String) : Option String :=
  (COURSE_MAP.find? (fun p => p.2 == code)).map Prod.fst

/-- The per-link body of the loop on main.py lines 101-109: the link
passes the `href*='jcd='` selector, its code regex matches, and the code
is a key of the inverted course map; otherwise the link contributes
nothing. -/
def extract_course (href : String) : Option String :=
  if hasJcdEq href.data then
    match jcdSearch href.data with
    | some code => invLookup code
    | none => none
  else none

/-- Sorting of venue-name strings, modelling Python's `sorted` on
`str` (Mathlib's `LinearOrder String` is the same code-point
lexicographic order). -/
def sortStrings (l : List String) : List String :=
  List.insertionSort (fun a b : String => a ≤ b) l

/-- `BoatRaceScraperV5.fetch_active_courses` (main.py lines 89-111):
collect the venue name of every recognized link, then
`sorted(list(set(active_courses)))`.  `List.dedup` plays the role of
`set` (Python then sorts, so only the underlying set matters). -/
def fetch_active_courses (hrefs : List String) : List String :=
  sortStrings (hrefs.filterMap extract_course).dedup

/-!
### Patrol loop (`run_live_patrol`, main.py lines 273-330) and the
duplicate-suppression log (lines 29-38)

The log file is the list of its lines; `is_already_notified` is list
membership and `save_notified_race` appends a line.  The outcome of
`predict_single` for a given race is an oracle `status`; a status of `1`
is a hit, which is notified and recorded.
-/

/-- The composite race identifier `f"{date_str}_{course}_{rno}"`
(main.py line 301). -/
def raceId (date course : String) (rno : Nat) : String :=
  date ++ "_" ++ course ++ "_" ++ toString rno

/-- The mutable state touched by one patrol run: the suppression-log
lines, plus (for specification purposes) the races on which
`predict_single` was invoked and the races notified. -/
structure PatrolState where
  log : List String
  evaluated : List String
  notified : List String

/-- The body of the `for rno in targets` loop (main.py lines 300-328):
skip when `is_already_notified(race_id)`; otherwise run the prediction
(recorded in `evaluated`), and on a hit send the notification and append
the race to the log. -/
def patrolRace (status : String → Nat → Int) (date course : String)
    (st : PatrolState) (rno : Nat) : PatrolState :=
  let race_id := raceId date course rno
  if race_id ∈ st.log then st
  else
    let st1 : PatrolState := { st with evaluated := st.evaluated ++ [race_id] }
    if status course rno = 1 then
      { st1 with
        notified := st1.notified ++ [race_id]
        log := st1.log ++ [race_id] }
    else st1

/-- The per-venue loop body of main.py lines 292-328: fold the race loop
over that venue's target race numbers. -/
def patrolCourse (status : String → Nat → Int) (date : String)
    (st : PatrolState) (ct : String × List Nat) : PatrolState :=
  ct.2.foldl (patrolRace status date ct.1) st

/-- `run_live_patrol` (main.py lines 273-330) restricted to its loop
structure: fold the venue loop over the active venues paired with their
target race numbers. -/
def run_live_patrol (status : String → Nat → Int) (date : String)
    (courses : List (String × List Nat)) (st : PatrolState) : PatrolState :=
  courses.foldl (patrolCourse status date) st

/-!
### Specification-side definitions and sample inputs
-/

/-- The maximum of a list of probabilities (the head of any descending
ranking of them); `0` for the empty list.  Modelled from the claim
wording of the decision engine, for comparison with the code. -/
def bestSpec (qs : List ℚ) : ℚ :=
  match qs with
  | [] => 0
  | q :: rest => rest.foldl max q

/-- Modelled from the claim wording of the decision engine:
`lead_upset_probability = 1 - probs[0]`; rank the probabilities at
indices 1..5 descending and call the top one `best`; below `tauUpset`
the decision is the no-action empty string, otherwise `FOCUS`,
`STANDARD` or `WIDE` by comparing `best` with the two remaining
thresholds. -/
def decisionSpec (tauUpset tauFocus tauStandard : ℚ) (probs : List ℚ) : String :=
  let lead_upset : ℚ := 1 - probs.headD 0
  let best : ℚ := bestSpec (probs.drop 1)
  if lead_upset < tauUpset then ""
  else if best ≥ tauFocus then "FOCUS"
  else if best ≥ tauStandard then "STANDARD"
  else "WIDE"

/-- A concrete raw race record (all fields at their neutral defaults),
used to instantiate the theorems below. -/
def sampleData : RaceData where
  wind_speed := 0
  wave := 0
  deadline := "16:30"
  ex_time := fun _ => 6.80
  st := fun _ => 0.15
  rank := fun _ => "B2"
  win_rate := fun _ => 0

/-- A concrete network environment in which the first before-info fetch
fails (`_get_soup` returned `None`). -/
def samplePages : RacePages where
  soupList := some
    { deadlineMatch := some "16:30"
      hasNoDataMarker := false
      tbodyFs12 := []
      tbodyAll := []
      weather1 := none
      w748rows := none }
  soupInfo := none
  soupInfoRefetch := none

/-- The probability row of the worked FOCUS example. -/
def focusProbs : List ℚ := [0.40, 0.10, 0.40, 0.05, 0.03, 0.02]

/-- The probability row of the worked no-signal example. -/
def noSignalProbs : List ℚ := [0.50, 0.15, 0.15, 0.10, 0.05, 0.05]

/-!
## Theorems
-/

/-- Shared helper: every execution path of `fetch_race_data` ends in
`return None` — either one of the early unavailability returns, or the
`NameError` raised by the unbound `jcd` on line 183, which the bare
`except` converts to `None`. -/
theorem fetch_race_data_result_eq_none (pages : RacePages) :
    fetch_race_data_result pages = none := by
  obtain ⟨sl, si, sr⟩ := pages
  cases sl with
  | none => rfl
  | some soup_list =>
    cases si with
    | none => rfl
    | some soup_info0 =>
      cases h : soup_info0.hasNoDataMarker <;>
        simp [fetch_race_data_result, fetch_race_data, h, Except.bind]

/-- C1: for every venue, race number and date — that is, for every network
environment a `fetch_race_data` call can observe — the call returns
`None`: the second before-info fetch on main.py line 183 references the
name `jcd`, which is never bound in that scope, so a `NameError` is
raised and converted to a `None` return by the enclosing bare `except`;
consequently no complete raw race record is ever produced, and every race
evaluation by `predict_single` ends in the data-unavailable path
`(None, -1)`. -/
theorem c1_fetch_race_data_always_none :
    ∀ pages : RacePages, fetch_race_data_result pages = none ∧
      ∀ (course : String) (rno : Nat) (model : InputDict → List ℚ),
        predict_single course rno model (fetch_race_data_result pages) =
          (none, -1) := by
  intro pages
  refine ⟨fetch_race_data_result_eq_none pages, ?_⟩
  intro course rno model
  rw [fetch_race_data_result_eq_none pages]
  rfl

/-- C3: whenever the raw record is void (`fetch_race_data` returned
`None`), `predict_single` yields the `NONE` outcome with diagnostic code
`-1` ("data unavailable"), regardless of what the predictive model would
output — the model is not consulted.  That code is distinct from the
code `0` used for "evaluated, no upset signal", as the worked no-signal
run `(None, 0)` shows. -/
theorem c3_extraction_failure_dominates :
    (∀ (course : String) (rno : Nat) (model : InputDict → List ℚ),
       predict_single course rno model none = (none, -1))
    ∧ predict_single "桐生" 2 (fun _ => noSignalProbs) (some sampleData) =
        (none, 0)
    ∧ (-1 : Int) ≠ 0 := by
  refine ⟨fun _ _ _ => rfl, ?_, by decide⟩
  norm_num [predict_single, rankingOf, sortDesc, descRel, noSignalProbs,
    strategyOf, List.enum, List.enumFrom]

/-- C8: for every raw race record, the six `ex_diff` features (each
boat's exhibition time minus the arithmetic mean of the six times) sum to
zero exactly, in the exact rational arithmetic of the model. -/
theorem c8_ex_diff_mean_centered (data : RaceData) :
    ∑ i : Fin 6, (buildInput data).ex_diff i = 0 := by
  have hv : exVals data = [data.ex_time 0, data.ex_time 1, data.ex_time 2,
      data.ex_time 3, data.ex_time 4, data.ex_time 5] := rfl
  simp [buildInput, hv, Fin.sum_univ_six]
  ring

/-- Helper: one iteration of the race loop never re-evaluates, never
re-notifies, and never un-records a race id already present in the
suppression log. -/
theorem patrolRace_preserves (status : String → Nat → Int)
    (date course : String) (st : PatrolState) (rno : Nat) (rid : String)
    (h : rid ∈ st.log) :
    rid ∈ (patrolRace status date course st rno).log ∧
      (patrolRace status date course st rno).evaluated.count rid =
        st.evaluated.count rid ∧
      (patrolRace status date course st rno).notified.count rid =
        st.notified.count rid := by
  unfold patrolRace
  by_cases hmem : raceId date course rno ∈ st.log
  · simp [hmem, h]
  · have hne : rid ≠ raceId date course rno := fun he => hmem (he ▸ h)
    by_cases hs : status course rno = 1 <;>
      simp [hmem, hs, h, List.count_append, List.count_cons, hne]

/-- Helper: the race-number fold of one venue preserves the same
invariant. -/
theorem foldl_patrolRace_preserves (status : String → Nat → Int)
    (date course : String) (rnos : List Nat) :
    ∀ (st : PatrolState) (rid : String), rid ∈ st.log →
      rid ∈ (rnos.foldl (patrolRace status date course) st).log ∧
        (rnos.foldl (patrolRace status date course) st).evaluated.count rid =
          st.evaluated.count rid ∧
        (rnos.foldl (patrolRace status date course) st).notified.count rid =
          st.notified.count rid := by
  induction rnos with
  | nil => exact fun st rid h => ⟨h, rfl, rfl⟩
  | cons r rs ih =>
    intro st rid h
    have h1 := patrolRace_preserves status date course st r rid h
    have h2 := ih (patrolRace status date course st r) rid h1.1
    exact ⟨h2.1, h2.2.1.trans h1.2.1, h2.2.2.trans h1.2.2⟩

/-- C10: during a patrol run, a race whose composite identifier is
already present in the duplicate-suppression log is never evaluated or
notified again: the log only grows, the number of evaluations of that
identifier stays what it was, and so does the number of notifications —
even when the identifier is re-scanned (appears among the targets of any
venue) within the same run. -/
theorem c10_suppression_log (status : String → Nat → Int) (date : String)
    (courses : List (String × List Nat)) (st : PatrolState) (rid : String)
    (h : rid ∈ st.log) :
    rid ∈ (run_live_patrol status date courses st).log ∧
      (run_live_patrol status date courses st).evaluated.count rid =
        st.evaluated.count rid ∧
      (run_live_patrol status date courses st).notified.count rid =
        st.notified.count rid := by
  induction courses generalizing st with
  | nil => exact ⟨h, rfl, rfl⟩
  | cons c cs ih =>
    have h1 := foldl_patrolRace_preserves status date c.1 c.2 st rid h
    have h2 := ih (patrolCourse status date st c) h1.1
    exact ⟨h2.1, h2.2.1.trans h1.2.1, h2.2.2.trans h1.2.2⟩

/-- Concrete instantiation of `c10_suppression_log`: a logged race id
survives a patrol over a venue that re-scans it, with no evaluation and
no notification. -/
theorem c10_suppression_log_witness :
    "20261012_丸亀_1" ∈ (run_live_patrol (fun _ _ => 1) "20261012"
        [("丸亀", [1, 2])] (PatrolState.mk ["20261012_丸亀_1"] [] [])).log ∧
      (run_live_patrol (fun _ _ => 1) "20261012" [("丸亀", [1, 2])]
          (PatrolState.mk ["20261012_丸亀_1"] [] [])).evaluated.count
          "20261012_丸亀_1" =
        (PatrolState.mk ["20261012_丸亀_1"] [] []).evaluated.count
          "20261012_丸亀_1" ∧
      (run_live_patrol (fun _ _ => 1) "20261012" [("丸亀", [1, 2])]
          (PatrolState.mk ["20261012_丸亀_1"] [] [])).notified.count
          "20261012_丸亀_1" =
        (PatrolState.mk ["20261012_丸亀_1"] [] []).notified.count
          "20261012_丸亀_1" :=
  c10_suppression_log (fun _ _ => 1) "20261012" [("丸亀", [1, 2])]
    (PatrolState.mk ["20261012_丸亀_1"] [] []) "20261012_丸亀_1" (by simp)

/-- Helper: full characterization of membership in the enumeration
loop's output. -/
theorem targetLoop_mem_iff (entries : List (Option ℚ)) :
    ∀ (i r : Nat), r ∈ targetLoop entries i ↔
      ∃ (k : Nat) (m : ℚ), entries[k]? = some (some m) ∧ r = i + k + 1 ∧
        r ≤ 12 ∧ 5 ≤ m ∧ m ≤ 35 := by
  induction entries with
  | nil => intro i r; simp [targetLoop]
  | cons e rest ih =>
    intro i r
    show r ∈ (if i + 1 > 12 then [] else _ ++ targetLoop rest (i + 1)) ↔ _
    by_cases h : i + 1 > 12
    · rw [if_pos h]
      simp only [List.not_mem_nil, false_iff]
      rintro ⟨k, m, _, rfl, hr, _⟩
      omega
    · rw [if_neg h]
      simp only [List.mem_append]
      constructor
      · rintro (h1 | h2)
        · cases e with
          | none => simp at h1
          | some m =>
            have h1' : r ∈ (if 5 ≤ m ∧ m ≤ 35 then [i + 1] else ([] : List Nat)) := h1
            by_cases hw : 5 ≤ m ∧ m ≤ 35
            · rw [if_pos hw] at h1'
              simp only [List.mem_singleton] at h1'
              subst h1'
              exact ⟨0, m, by simp, by omega, by omega, hw⟩
            · rw [if_neg hw] at h1'
              simp at h1'
        · obtain ⟨k, m, hget, hr, h12, hw⟩ := (ih (i + 1) r).mp h2
          exact ⟨k + 1, m, by simpa using hget, by omega, h12, hw⟩
      · rintro ⟨k, m, hget, rfl, h12, hw⟩
        cases k with
        | zero =>
          left
          simp only [List.getElem?_cons_zero, Option.some.injEq] at hget
          subst hget
          show i + 0 + 1 ∈ (if 5 ≤ m ∧ m ≤ 35 then [i + 1] else ([] : List Nat))
          rw [if_pos hw]
          simp
        | succ k' =>
          right
          refine (ih (i + 1) _).mpr ⟨k', m, by simpa using hget, by omega, h12, hw⟩

/-- C4: for every parsed deadline among the first twelve, the race is
selected as a target if and only if its minutes-remaining value lies in
the window `[5, 35]`, inclusively at both ends; in particular a race at
exactly the lower bound (5 minutes) is included and one minute below it
(4 minutes) is excluded. -/
theorem c4_inclusive_window :
    (∀ (entries : List (Option ℚ)) (k : Nat) (m : ℚ), k < 12 →
       entries[k]? = some (some m) →
       ((k + 1) ∈ get_target_races_for_course (some entries) ↔
         5 ≤ m ∧ m ≤ 35))
    ∧ get_target_races_for_course (some [some 5]) = [1]
    ∧ get_target_races_for_course (some [some 4]) = [] := by
  refine ⟨?_, ?_, ?_⟩
  · intro entries k m hk hget
    have hne : entries.isEmpty = false := by
      cases entries with
      | nil => simp at hget
      | cons a t => rfl
    rw [get_target_races_for_course, hne]
    simp only [Bool.false_eq_true, if_false]
    rw [targetLoop_mem_iff]
    constructor
    · rintro ⟨k', m', hget', hk', _, hw⟩
      have hkk : k' = k := by omega
      subst hkk
      rw [hget] at hget'
      obtain rfl : m = m' := by
        simpa using hget'
      exact hw
    · intro hw
      exact ⟨k, m, hget, by omega, by omega, hw⟩
  · norm_num [get_target_races_for_course, targetLoop]
  · norm_num [get_target_races_for_course, targetLoop]

/-- Concrete instantiation of `c4_inclusive_window`: with a single
deadline parsed 20 minutes away, race 1 is targeted since
`5 ≤ 20 ∧ 20 ≤ 35`. -/
theorem c4_inclusive_window_witness :
    1 ∈ get_target_races_for_course (some [some 20]) ↔
      5 ≤ (20 : ℚ) ∧ (20 : ℚ) ≤ 35 :=
  c4_inclusive_window.1 [some 20] 0 20 (by omega) rfl

/-- Helper: the enumeration loop started at counter `i` computes the
`windowSelect` image of the enumerated first `12 - i` entries. -/
theorem targetLoop_eq_enumFrom (entries : List (Option ℚ)) :
    ∀ i, targetLoop entries i =
      (List.enumFrom i (entries.take (12 - i))).filterMap windowSelect := by
  induction entries with
  | nil => intro i; simp [targetLoop]
  | cons e rest ih =>
    intro i
    by_cases h : i + 1 > 12
    · have h0 : 12 - i = 0 := by omega
      show (if i + 1 > 12 then ([] : List Nat) else _ ++ targetLoop rest (i + 1)) = _
      rw [if_pos h, h0]
      simp
    · have h1 : 12 - i = (12 - (i + 1)) + 1 := by omega
      show (if i + 1 > 12 then ([] : List Nat) else _ ++ targetLoop rest (i + 1)) = _
      rw [if_neg h, h1, List.take_succ_cons, List.enumFrom,
        List.filterMap_cons, ih (i + 1)]
      cases e with
      | none => simp [windowSelect]
      | some m =>
        by_cases hw : 5 ≤ m ∧ m ≤ 35 <;> simp [windowSelect, hw]

/-- C5: the schedule-window filter is positional and robust — its output
is exactly the `windowSelect` image of the positionally enumerated first
twelve deadline entries (the `k`-th parsed deadline block is race `k+1`,
nothing past race 12 is processed, unparseable entries are skipped
without failing the venue), and a page with zero deadlines yields the
empty target list rather than an error. -/
theorem c5_positional_capped_robust :
    (∀ entries : List (Option ℚ),
       get_target_races_for_course (some entries) =
         positionalTargetsSpec entries)
    ∧ get_target_races_for_course (some []) = [] := by
  constructor
  · intro entries
    rw [get_target_races_for_course, positionalTargetsSpec]
    cases entries with
    | nil => simp
    | cons e rest =>
      rw [targetLoop_eq_enumFrom]
      simp [List.enum]
  · rfl

/-- C6: extraction voids the whole record — returns `None` rather than any
partial record — whenever the before-info page is unavailable, its text
contains the explicit no-data marker, the fixed-width `.is-w748` results
table is absent, or any boat row has fewer data columns than required.
(These conditions hold a fortiori: by `fetch_race_data_result_eq_none`
the `jcd` `NameError` makes every call return `None`, so in particular no
partial `RaceData` — whose type already forces six boats' worth of
fields — is ever returned.) -/
theorem c6_void_on_structural_failure (pages : RacePages)
    (_h : pages.soupInfo = none
      ∨ (∃ si, pages.soupInfo = some si ∧ si.hasNoDataMarker = true)
      ∨ (∃ si, pages.soupInfoRefetch = some si ∧ si.w748rows = none)
      ∨ (∃ si rows row, pages.soupInfoRefetch = some si ∧
           si.w748rows = some rows ∧ row ∈ rows ∧ row.tds.length < 5)) :
    fetch_race_data_result pages = none ∧
      ∀ d : RaceData, fetch_race_data_result pages ≠ some d := by
  refine ⟨fetch_race_data_result_eq_none pages, fun d hd => ?_⟩
  rw [fetch_race_data_result_eq_none pages] at hd
  exact Option.noConfusion hd

/-- Concrete instantiation of `c6_void_on_structural_failure`: with the
before-info page unavailable, extraction returns `None`. -/
theorem c6_void_on_structural_failure_witness :
    fetch_race_data_result samplePages = none ∧
      ∀ d : RaceData, fetch_race_data_result samplePages ≠ some d :=
  c6_void_on_structural_failure samplePages (Or.inl rfl)

/-- Helper: a strict version of filter-length monotonicity — if the list
has a member satisfying `q` but not `p`, and `p` implies `q` on the list,
the `p`-filter is strictly shorter than the `q`-filter. -/
theorem length_filter_lt_of_mem {α : Type} {l : List α} {p q : α → Bool}
    {a : α} (ha : a ∈ l) (hpa : p a = false) (hqa : q a = true)
    (himp : ∀ x ∈ l, p x = true → q x = true) :
    (l.filter p).length < (l.filter q).length := by
  induction l with
  | nil => cases ha
  | cons b t ih =>
    rw [List.filter_cons, List.filter_cons]
    have hle : (t.filter p).length ≤ (t.filter q).length := by
      rw [← List.countP_eq_length_filter, ← List.countP_eq_length_filter]
      exact List.countP_mono_left (fun x hx => himp x (List.mem_cons_of_mem _ hx))
    rcases List.mem_cons.mp ha with rfl | hat
    · rw [hpa, hqa]
      simp only [Bool.false_eq_true, if_false, if_true, List.length_cons]
      omega
    · have himp' : ∀ x ∈ t, p x = true → q x = true :=
        fun x hx => himp x (List.mem_cons_of_mem _ hx)
      have ihh := ih hat himp'
      cases hpb : p b
      · cases hqb : q b <;>
          simp only [Bool.false_eq_true, if_false, if_true, List.length_cons] <;>
          omega
      · have hqb := himp b (List.mem_cons_self _ _) hpb
        rw [hqb]
        simp only [if_true, List.length_cons]
        omega

/-- Helper: the `ex_rank` feature of boat `i` is one plus the number of
boats with a strictly smaller exhibition time. -/
theorem ex_rank_eq_count (data : RaceData) (i : Fin 6) :
    (buildInput data).ex_rank i =
      1 + (((List.finRange 6).filter
        (fun j => decide (data.ex_time j < data.ex_time i))).length : ℚ) := by
  have hk : i.val < (exVals data).length := by
    simp [exVals]
  show (rankMin (exVals data)).getD i.val 0 = _
  rw [rankMin, List.getD_eq_getElem?_getD, List.getElem?_map,
    List.getElem?_eq_getElem hk]
  have hv : (exVals data)[i.val] = data.ex_time i := by
    simp [exVals]
  simp only [Option.map_some', Option.getD_some, hv]
  congr 2
  rw [exVals, List.filter_map, List.length_map]
  rfl

/-- C7: for every raw record, the six `ex_rank` values form a valid "min"
ranking of the six exhibition times: each rank equals one plus the number
of strictly smaller times, tied times receive the same rank, strictly
faster times receive strictly smaller ranks, a time no larger than all
others gets rank 1, and every rank lies between 1 and 6 — the
permutation-with-ties of `1..6`. -/
theorem c7_exhibition_rank_min (data : RaceData) :
    (∀ i : Fin 6, (buildInput data).ex_rank i =
       1 + (((List.finRange 6).filter
         (fun j => decide (data.ex_time j < data.ex_time i))).length : ℚ))
    ∧ (∀ i j : Fin 6, data.ex_time i = data.ex_time j →
        (buildInput data).ex_rank i = (buildInput data).ex_rank j)
    ∧ (∀ i j : Fin 6, data.ex_time i < data.ex_time j →
        (buildInput data).ex_rank i < (buildInput data).ex_rank j)
    ∧ (∀ i : Fin 6, (∀ j : Fin 6, data.ex_time i ≤ data.ex_time j) →
        (buildInput data).ex_rank i = 1)
    ∧ (∀ i : Fin 6, 1 ≤ (buildInput data).ex_rank i ∧
        (buildInput data).ex_rank i ≤ 6) := by
  refine ⟨ex_rank_eq_count data, ?_, ?_, ?_, ?_⟩
  · intro i j h
    rw [ex_rank_eq_count, ex_rank_eq_count, h]
  · intro i j h
    rw [ex_rank_eq_count, ex_rank_eq_count]
    have hcount : (((List.finRange 6).filter
        (fun k => decide (data.ex_time k < data.ex_time i))).length) <
        (((List.finRange 6).filter
        (fun k => decide (data.ex_time k < data.ex_time j))).length) := by
      refine length_filter_lt_of_mem (List.mem_finRange i) ?_ ?_ ?_
      · exact decide_eq_false (lt_irrefl _)
      · exact decide_eq_true h
      · intro x _ hx
        exact decide_eq_true (lt_trans (of_decide_eq_true hx) h)
    have : (((List.finRange 6).filter
        (fun k => decide (data.ex_time k < data.ex_time i))).length : ℚ) <
        (((List.finRange 6).filter
        (fun k => decide (data.ex_time k < data.ex_time j))).length : ℚ) := by
      exact_mod_cast hcount
    linarith
  · intro i h
    rw [ex_rank_eq_count]
    have : (List.finRange 6).filter
        (fun j => decide (data.ex_time j < data.ex_time i)) = [] := by
      rw [List.filter_eq_nil_iff]
      intro j _
      simp only [decide_eq_true_eq]
      exact not_lt.mpr (h j)
    rw [this]
    norm_num
  · intro i
    rw [ex_rank_eq_count]
    constructor
    · have : (0 : ℚ) ≤ (((List.finRange 6).filter
          (fun j => decide (data.ex_time j < data.ex_time i))).length : ℚ) := by
        positivity
      linarith
    · have hcount : (((List.finRange 6).filter
          (fun j => decide (data.ex_time j < data.ex_time i))).length) <
          (((List.finRange 6).filter (fun _ => true)).length) := by
        refine length_filter_lt_of_mem (List.mem_finRange i) ?_ rfl ?_
        · exact decide_eq_false (lt_irrefl _)
        · intro x _ _
          rfl
      rw [List.filter_true, List.length_finRange] at hcount
      have h5 : (((List.finRange 6).filter
          (fun j => decide (data.ex_time j < data.ex_time i))).length) ≤ 5 := by
        omega
      have : (((List.finRange 6).filter
          (fun j => decide (data.ex_time j < data.ex_time i))).length : ℚ) ≤ 5 := by
        exact_mod_cast h5
      linarith

/-- Concrete instantiation of `c7_exhibition_rank_min`: in the sample
record all six exhibition times are equal, so boats 1 and 2 share a
rank. -/
theorem c7_exhibition_rank_min_witness :
    (buildInput sampleData).ex_rank 0 = (buildInput sampleData).ex_rank 1 :=
  (c7_exhibition_rank_min sampleData).2.1 0 1 rfl

/-- C9: venue discovery returns an ordered, duplicate-free list containing
exactly the venue names whose two-digit codes extracted from the page's
links appear in the static venue enumeration; links with unknown or
unmatchable codes are silently ignored — they never cause an error and
never appear in the result, and every returned name is a key of
`COURSE_MAP`. -/
theorem c9_active_courses (hrefs : List String) :
    (fetch_active_courses hrefs).Nodup
    ∧ List.Sorted (fun a b : String => a ≤ b) (fetch_active_courses hrefs)
    ∧ (∀ name : String, name ∈ fetch_active_courses hrefs ↔
        ∃ href ∈ hrefs, extract_course href = some name)
    ∧ (∀ name ∈ fetch_active_courses hrefs,
        ∃ p ∈ COURSE_MAP, p.1 = name) := by
  have hperm : List.Perm (fetch_active_courses hrefs)
      (hrefs.filterMap extract_course).dedup :=
    List.perm_insertionSort _ _
  have hmem : ∀ name : String, name ∈ fetch_active_courses hrefs ↔
      ∃ href ∈ hrefs, extract_course href = some name := by
    intro name
    rw [hperm.mem_iff, List.mem_dedup, List.mem_filterMap]
  refine ⟨?_, ?_, hmem, ?_⟩
  · exact hperm.nodup_iff.mpr (List.nodup_dedup _)
  · exact List.sorted_insertionSort _ _
  · intro name hn
    obtain ⟨href, _, hex⟩ := (hmem name).mp hn
    unfold extract_course at hex
    by_cases hj : hasJcdEq href.data
    · rw [if_pos hj] at hex
      cases hs : jcdSearch href.data with
      | none => rw [hs] at hex; cases hex
      | some code =>
        rw [hs] at hex
        unfold invLookup at hex
        have hex' : Option.map Prod.fst
            (COURSE_MAP.find? (fun p => p.2 == code)) = some name := hex
        cases hf : COURSE_MAP.find? (fun p => p.2 == code) with
        | none => rw [hf] at hex'; cases hex'
        | some p =>
          rw [hf] at hex'
          simp only [Option.map_some', Option.some.injEq] at hex'
          exact ⟨p, List.mem_of_find?_eq_some hf, hex'⟩
    · rw [if_neg hj] at hex
      cases hex

/-- Concrete instantiation of `c9_active_courses`: a race-list link with
code `01` is recognized as 桐生. -/
theorem c9_active_courses_witness :
    "桐生" ∈ fetch_active_courses ["/owpc/pc/race/racelist?jcd=01&hd=20261012"] :=
  ((c9_active_courses ["/owpc/pc/race/racelist?jcd=01&hd=20261012"]).2.2.1
    "桐生").mpr ⟨"/owpc/pc/race/racelist?jcd=01&hd=20261012", by simp, by decide⟩

/-- Helper: the head of the descending sort dominates every member of the
list and is itself a member. -/
theorem sortDesc_headD_max (pairs : List (Nat × ℚ)) (x : Nat × ℚ)
    (hx : x ∈ pairs) (d : Nat × ℚ) :
    x.2 ≤ ((sortDesc pairs).headD d).2 ∧ (sortDesc pairs).headD d ∈ pairs := by
  have hperm : List.Perm (sortDesc pairs) pairs :=
    List.perm_insertionSort descRel pairs
  have hsorted : List.Sorted descRel (sortDesc pairs) :=
    List.sorted_insertionSort descRel pairs
  cases hs : sortDesc pairs with
  | nil =>
    exfalso
    have hnil : pairs = [] := by
      have := hperm
      rw [hs] at this
      exact this.symm.eq_nil
    rw [hnil] at hx
    cases hx
  | cons y ys =>
    have hy : y ∈ pairs := hperm.subset (by rw [hs]; exact List.mem_cons_self _ _)
    have hrel : ∀ z ∈ ys, descRel y z := by
      rw [hs] at hsorted
      exact (List.pairwise_cons.mp hsorted).1
    have hx' : x ∈ y :: ys := by
      rw [← hs]
      exact hperm.symm.subset hx
    rcases List.mem_cons.mp hx' with rfl | hxy
    · exact ⟨le_refl _, hy⟩
    · exact ⟨hrel x hxy, hy⟩

/-- C2: for every 6-entry probability vector, the code's decision — the
strategy computed from `lead_upset_probability = 1 - probs[0]` and the
top of the descending ranking of the probabilities at indices 1..5 —
agrees with the specification rule (`NONE` when the lead-upset
probability is below 0.55, otherwise `FOCUS`/`STANDARD`/`WIDE` by
comparing the best remaining probability with 0.35 and 0.25); and on the
worked example `[0.40, 0.10, 0.40, 0.05, 0.03, 0.02]` the full
`predict_single` pipeline decides `FOCUS` with best boat lane 3 and
status 1. -/
theorem c2_decision_engine :
    (∀ probs : List ℚ, probs.length = 6 →
       strategyOf (1 - probs.headD 0) ((rankingOf probs).headD (0, 0)).2 =
         decisionSpec 0.55 0.35 0.25 probs)
    ∧ (predict_single "桐生" 2 (fun _ => focusProbs) (some sampleData)).2 = 1
    ∧ ((predict_single "桐生" 2 (fun _ => focusProbs) (some sampleData)).1.map
        (fun r => (r.strategy, r.top1.1))) = some ("FOCUS", 3) := by
  refine ⟨?_, ?_, ?_⟩
  · intro probs hlen
    rcases probs with _ | ⟨p0, probs⟩
    · simp at hlen
    rcases probs with _ | ⟨p1, probs⟩
    · simp at hlen
    rcases probs with _ | ⟨p2, probs⟩
    · simp at hlen
    rcases probs with _ | ⟨p3, probs⟩
    · simp at hlen
    rcases probs with _ | ⟨p4, probs⟩
    · simp at hlen
    rcases probs with _ | ⟨p5, probs⟩
    · simp at hlen
    obtain rfl : probs = [] := by
      have h0 : probs.length = 0 := by
        simp only [List.length_cons] at hlen
        omega
      exact List.length_eq_zero.mp h0
    have hr : rankingOf [p0, p1, p2, p3, p4, p5] =
        sortDesc [(2, p1), (3, p2), (4, p3), (5, p4), (6, p5)] := rfl
    rw [hr]
    have h1 := sortDesc_headD_max [(2, p1), (3, p2), (4, p3), (5, p4), (6, p5)]
      (2, p1) (by simp) (0, 0)
    have h2 := (sortDesc_headD_max [(2, p1), (3, p2), (4, p3), (5, p4), (6, p5)]
      (3, p2) (by simp) (0, 0)).1
    have h3 := (sortDesc_headD_max [(2, p1), (3, p2), (4, p3), (5, p4), (6, p5)]
      (4, p3) (by simp) (0, 0)).1
    have h4 := (sortDesc_headD_max [(2, p1), (3, p2), (4, p3), (5, p4), (6, p5)]
      (5, p4) (by simp) (0, 0)).1
    have h5 := (sortDesc_headD_max [(2, p1), (3, p2), (4, p3), (5, p4), (6, p5)]
      (6, p5) (by simp) (0, 0)).1
    have hHB : ((sortDesc [(2, p1), (3, p2), (4, p3), (5, p4), (6, p5)]).headD
        (0, 0)).2 = bestSpec [p1, p2, p3, p4, p5] := by
      show _ = List.foldl max p1 [p2, p3, p4, p5]
      have hBchain : List.foldl max p1 [p2, p3, p4, p5] =
          max (max (max (max p1 p2) p3) p4) p5 := rfl
      rw [hBchain]
      apply le_antisymm
      · have hmem := h1.2
        simp only [List.mem_cons, List.not_mem_nil, or_false] at hmem
        rcases hmem with he | he | he | he | he <;> rw [he] <;>
          simp [le_max_iff, le_refl]
      · exact max_le (max_le (max_le (max_le h1.1 h2) h3) h4) h5
    show (if 1 - p0 ≥ 0.55 then
        if ((sortDesc [(2, p1), (3, p2), (4, p3), (5, p4), (6, p5)]).headD
          (0, 0)).2 ≥ 0.35 then "FOCUS"
        else if ((sortDesc [(2, p1), (3, p2), (4, p3), (5, p4), (6, p5)]).headD
          (0, 0)).2 ≥ 0.25 then "STANDARD"
        else "WIDE"
      else "") =
      (if 1 - p0 < 0.55 then ""
       else if bestSpec [p1, p2, p3, p4, p5] ≥ 0.35 then "FOCUS"
       else if bestSpec [p1, p2, p3, p4, p5] ≥ 0.25 then "STANDARD"
       else "WIDE")
    rw [hHB]
    rcases lt_or_le (1 - p0) 0.55 with hlt | hge
    · rw [if_neg (not_le.mpr hlt), if_pos hlt]
    · rw [if_pos hge, if_neg (not_lt.mpr hge)]
  · norm_num [predict_single, rankingOf, sortDesc, descRel, focusProbs,
      strategyOf, List.enum, List.enumFrom]
    rw [if_neg (show ¬("FOCUS" : String) = "" by decide)]
  · norm_num [predict_single, rankingOf, sortDesc, descRel, focusProbs,
      strategyOf, List.enum, List.enumFrom]
    rw [if_neg (show ¬("FOCUS" : String) = "" by decide)]
    exact ⟨_, rfl, rfl, rfl⟩

/-- Concrete instantiation of `c2_decision_engine`: the decision computed
by the code on the worked FOCUS example equals the specification's
decision. -/
theorem c2_decision_engine_witness :
    strategyOf (1 - ([(0.40 : ℚ), 0.10, 0.40, 0.05, 0.03, 0.02]).headD 0)
        ((rankingOf [(0.40 : ℚ), 0.10, 0.40, 0.05, 0.03, 0.02]).headD (0, 0)).2 =
      decisionSpec 0.55 0.35 0.25 [(0.40 : ℚ), 0.10, 0.40, 0.05, 0.03, 0.02] :=
  c2_decision_engine.1 [0.40, 0.10, 0.40, 0.05, 0.03, 0.02] rfl
